/-
Verification of the NAAF (National AI Assessment Framework) scoring,
tiering and persistence core.

Shallow embedding of:
  * NAAF-Research-Agents/agents/naaf_research/tools/scoring.py
  * NAAF-Research-Agents/agents/naaf_research/tools/persistence.py
  * backend/framework/naaf_framework.py
  * backend/framework/research_store.py

Modelling conventions:
  * Python floats are modelled as rationals (exact arithmetic).
  * Python dicts are modelled as insertion-ordered association lists;
    lookup/assignment/deletion mirror dict semantics (unique keys are a
    structural property of real dicts and appear as explicit hypotheses
    where a proof needs them).
  * The filesystem is modelled as an explicit map from paths to file
    contents; a JSON layer file stores the (parsed) layer-result record,
    since json.dumps is injective on the records in question.
  * Wall-clock timestamps (datetime.now) are passed as explicit string
    parameters.
-/
import Mathlib

namespace NAAF

/-! ### Dictionary helpers (Python dict as insertion-ordered assoc list) -/

/-- Python dict lookup: first entry with the given key. -/
def dlookup {κ α : Type} [DecidableEq κ] : List (κ × α) → κ → Option α
  | [], _ => none
  | e :: rest, k => if e.1 = k then some e.2 else dlookup rest k

/-- Python dict assignment d[k] = v: replace in place if the key exists,
otherwise append at the end (insertion order preserved). -/
def dset {κ α : Type} [DecidableEq κ] : List (κ × α) → κ → α → List (κ × α)
  | [], k, v => [(k, v)]
  | e :: rest, k, v => if e.1 = k then (k, v) :: rest else e :: dset rest k v

/-- Python dict deletion del d[k]: remove the (first) entry with the key. -/
def ddel {κ α : Type} [DecidableEq κ] : List (κ × α) → κ → List (κ × α)
  | [], _ => []
  | e :: rest, k => if e.1 = k then rest else e :: ddel rest k

/-! ### Layer registry (scoring.py lines 18-50) -/

/-- LAYER_WEIGHTS from scoring.py: percentage of 100 per layer. -/
def LAYER_WEIGHTS (n : ℕ) : ℚ :=
  match n with
  | 1 => 20
  | 2 => 15
  | 3 => 15
  | 4 => 10
  | 5 => 10
  | 6 => 10
  | 7 => 10
  | 8 => 10
  | _ => 0

/-- LAYER_NAMES from scoring.py. -/
def LAYER_NAMES (n : ℕ) : String :=
  match n with
  | 1 => "Power & Electricity"
  | 2 => "Chipset Manufacturers"
  | 3 => "Cloud & Data Centers"
  | 4 => "Model Developers"
  | 5 => "Platform & Data"
  | 6 => "Applications & Startups"
  | 7 => "Education & Consulting"
  | 8 => "Implementation"
  | _ => ""

/-- LAYER_SHORT_NAMES from scoring.py (same table as persistence.py). -/
def LAYER_SHORT_NAMES (n : ℕ) : String :=
  match n with
  | 1 => "power"
  | 2 => "chips"
  | 3 => "cloud"
  | 4 => "models"
  | 5 => "data"
  | 6 => "apps"
  | 7 => "talent"
  | 8 => "adoption"
  | _ => ""

/-! ### Rounding (Python round, banker's rounding) -/

/-- Python round() to the nearest integer, ties to even. -/
def pyRoundInt (x : ℚ) : ℤ :=
  let f := Int.floor x
  let frac := x - f
  if frac < 1/2 then f
  else if 1/2 < frac then f + 1
  else if f % 2 = 0 then f else f + 1

/-- Python round(x, d) for d decimal digits (exact on our rationals). -/
def pyRound (x : ℚ) (d : ℕ) : ℚ :=
  (pyRoundInt (x * (10 : ℚ) ^ d) : ℚ) / (10 : ℚ) ^ d

/-! ### Tier classification -/

/-- The tier branch of calculate_overall_score (scoring.py lines 197-208):
a chain of >= comparisons on the clamped overall score. -/
def overallTier (overall : ℚ) : String :=
  if 80 ≤ overall then "Tier 1: Hegemon"
  else if 50 ≤ overall then "Tier 2: Strategic Specialist"
  else if 30 ≤ overall then "Tier 3: Adopter"
  else "Tier 4: Consumer"

/-- POWER_TIERS from naaf_framework.py: label, (min_score, max_score),
description, in dict insertion order. -/
def POWER_TIERS : List (String × ℚ × ℚ × String) :=
  [("Tier 1: Hegemon", 80, 100,
     "Full-stack sovereignty. Controls atoms (chips/power) and bits (models/data). Can sanction others effectively."),
   ("Tier 2: Strategic Specialist", 50, 79,
     "World-class in specific layers but dependent on Hegemons for others."),
   ("Tier 3: Adopter", 30, 49,
     "Good infrastructure and talent, but largely consumes foreign AI technology."),
   ("Tier 4: Consumer", 0, 29,
     "Reliant entirely on imported hardware, software, and energy models. High risk of digital dependency.")]

/-- The loop body of get_tier: first tier whose closed range contains the
score wins; fall through to the default. -/
def findTier : List (String × ℚ × ℚ × String) → ℚ → String
  | [], _ => "Tier 4: Consumer"
  | t :: rest, s => if t.2.1 ≤ s ∧ s ≤ t.2.2.1 then t.1 else findTier rest s

/-- get_tier from naaf_framework.py lines 369-374. -/
def get_tier (score : ℚ) : String :=
  findTier POWER_TIERS score

/-! ### Aggregation (scoring.py calculate_overall_score, lines 143-217) -/

/-- The numeric part of calculate_overall_score in scoring.py.  The
function takes layer_1_score .. layer_8_score (defaulting to 0) and puts
them in the dict scores = \x7b1: layer_1_score, ..., 8: layer_8_score\x7d;
we model that dict as the function scores.
For num in range(1, 9): clamp the raw score to [0, 100], weight it,
accumulate; finally overall = min(overall, 100.0). -/
def calculate_overall_score (scores : ℕ → ℚ) : ℚ :=
  let overall :=
    (List.range' 1 8).foldl
      (fun acc num => acc + max 0 (min 100 (scores num)) / 100 * LAYER_WEIGHTS num) 0
  min overall 100

/-- The tier reported by calculate_overall_score for the given raw layer
scores (the returned text contains overall plus this tier). -/
def calculate_overall_score_tier (scores : ℕ → ℚ) : String :=
  overallTier (calculate_overall_score scores)

/-! ### Python string helpers

Character-level models of the Python string methods used by the
persistence code (str.lower, str.strip, str.replace with a single-char
pattern).  They are written over the character list so that they are
fully computable by the kernel. -/

/-- Python str.lower() (ASCII case folding, as used on country names). -/
def pyToLower (s : String) : String := String.mk (s.data.map Char.toLower)

/-- Python str.strip(): drop leading and trailing whitespace. -/
def pyTrim (s : String) : String :=
  String.mk (((s.data.dropWhile Char.isWhitespace).reverse.dropWhile Char.isWhitespace).reverse)

/-- Python str.replace(a, b) for single-character a and b. -/
def pyReplaceChar (s : String) (a b : Char) : String :=
  String.mk (s.data.map (fun c => if c = a then b else c))

/-! ### score_layer / persistence tool model
(scoring.py lines 53-140, persistence.py lines 46-63) -/

/-- The layer-result dict built by score_layer (scoring.py lines 100-110).
A layers/layer_n_short.json file stores the JSON serialization of such a
record; json.dumps is injective on these records, so files hold the
record itself. -/
structure LayerResult where
  layer_number : ℕ
  layer_name : String
  short_name : String
  score : ℚ
  max_score : ℚ
  weight_pct : ℚ
  weighted_contribution : ℚ
  justification : String
  status : String
deriving DecidableEq

/-- The ADK session state plus the on-disk artifacts of one run:
state["country"], state["report_dir"], the state["layer_n_json"] entries,
the layer JSON files (path to parsed content), and
state["collected_sources"].  (sources.json and final_report.json are
returned as values by save_final_report below.) -/
structure SourceRec where
  url : String
  title : String
deriving DecidableEq

structure ToolState where
  country : Option String
  report_dir : Option String
  layerJson : List (ℕ × LayerResult)
  files : List (String × LayerResult)
  collected_sources : List SourceRec
deriving DecidableEq

/-- The slug in _get_or_create_report_dir (persistence.py line 56):
country.strip().lower().replace(" ", "_"). -/
def countrySlug (country : String) : String :=
  pyReplaceChar (pyToLower (pyTrim country)) ' ' '_'

/-- _get_or_create_report_dir (persistence.py lines 46-63): reuse the
cached path from session state if present, otherwise derive
slug_timestamp and cache it.  ts stands for the UTC timestamp string of
datetime.now.  Directory creation is idempotent and not modelled. -/
def get_or_create_report_dir (country ts : String) (st : ToolState) : String × ToolState :=
  match st.report_dir with
  | some d => (d, st)
  | none =>
      let d := countrySlug country ++ "_" ++ ts
      (d, { st with report_dir := some d })

/-- Path of an individual layer file inside the run directory:
report_dir / "layers" / "layer_n_short.json". -/
def layerFilePath (dir : String) (n : ℕ) (short : String) : String :=
  dir ++ "/layers/layer_" ++ toString n ++ "_" ++ short ++ ".json"

/-- score_layer (scoring.py lines 53-124), with the ADK tool context
present.  Returns the Python return value — an error string for
out-of-range inputs, otherwise the computed weighted contribution and
the recorded layer result — paired with the updated session/disk state.
_write_layer_json (lines 127-140) is inlined at the call site: it
resolves the country, obtains the run directory and unconditionally
writes the layer file. -/
def score_layer (layer_number : ℤ) (score_0_to_100 : ℚ)
    (justification country ts : String) (st : ToolState) :
    Except String (ℚ × LayerResult) × ToolState :=
  if layer_number < 1 ∨ 8 < layer_number then
    (Except.error ("ERROR: layer_number must be 1-8"), st)
  else if score_0_to_100 < 0 ∨ 100 < score_0_to_100 then
    (Except.error ("ERROR: score must be 0-100"), st)
  else
    let n := layer_number.toNat
    let weight := LAYER_WEIGHTS n
    let weighted_contribution := score_0_to_100 / 100 * weight
    let name := LAYER_NAMES n
    let short := LAYER_SHORT_NAMES n
    let st1 := if country ≠ "" then { st with country := some country } else st
    let layer_result : LayerResult :=
      { layer_number := n
        layer_name := name
        short_name := short
        score := pyRound score_0_to_100 1
        max_score := 100
        weight_pct := weight
        weighted_contribution := pyRound weighted_contribution 2
        justification := justification
        status := "complete" }
    let st2 := { st1 with layerJson := dset st1.layerJson n layer_result }
    let resolved := if country ≠ "" then country else st2.country.getD ("unknown")
    let dirSt := get_or_create_report_dir resolved ts st2
    let st3 := dirSt.2
    let path := layerFilePath dirSt.1 n short
    let st4 := { st3 with files := dset st3.files path layer_result }
    (Except.ok (weighted_contribution, layer_result), st4)

/-- The final report value assembled by save_final_report
(persistence.py lines 135-144). -/
structure FinalReport where
  country : String
  years : List ℕ
  overall_score : ℚ
  tier : String
  executive_summary : String
  layers : List (String × LayerResult)
  sources : List String
  generated_at : String
deriving DecidableEq

/-- The source-deduplication loop of save_final_report (persistence.py
lines 117-125): iterate collected_sources in order, keep a source when
its url is non-empty and not yet seen. -/
def dedupSources : List SourceRec → List String → List SourceRec
  | [], _ => []
  | src :: rest, seen =>
      if src.url ≠ "" ∧ src.url ∉ seen then
        src :: dedupSources rest (src.url :: seen)
      else
        dedupSources rest seen

/-- The per-layer file write inside save_final_report (persistence.py
lines 107-112): write the layer file only when it does not already
exist. -/
def ensureLayerFile (dir : String) (fs : List (String × LayerResult))
    (p : ℕ × LayerResult) : List (String × LayerResult) :=
  let path := layerFilePath dir p.1 (LAYER_SHORT_NAMES p.1)
  if (dlookup fs path).isSome then fs else dset fs path p.2

/-- save_final_report (persistence.py lines 66-171).  Assembles the
per-layer data from session state (writing each layer file only when it
does not already exist), deduplicates the collected sources, and builds
the final report.  The returned pair is (final_report.json content,
new state); sources.json holds the deduplicated source records,
recoverable as dedupSources st.collected_sources []. -/
def save_final_report (country : String) (overall_score : ℚ)
    (tier executive_summary ts : String) (st : ToolState) :
    FinalReport × ToolState :=
  let dirSt := get_or_create_report_dir country ts st
  let dir := dirSt.1
  let st0 := dirSt.2
  let layerPairs :=
    (List.range' 1 8).filterMap
      (fun num => (dlookup st0.layerJson num).map (fun d => (num, d)))
  let layers := layerPairs.map (fun p => (LAYER_SHORT_NAMES p.1, p.2))
  let files := layerPairs.foldl (ensureLayerFile dir) st0.files
  let unique_sources := dedupSources st0.collected_sources []
  let source_urls := unique_sources.map SourceRec.url
  let report : FinalReport :=
    { country := country
      years := [2023, 2024, 2025]
      overall_score := pyRound overall_score 2
      tier := tier
      executive_summary := executive_summary
      layers := layers
      sources := source_urls
      generated_at := ts }
  (report, { st0 with files := files })

/-! ### Framework aggregation (naaf_framework.py lines 476-490) -/

/-- The keys of the NAAF_LAYERS dict in naaf_framework.py. -/
def naafLayerNumbers : List ℕ := [1, 2, 3, 4, 5, 6, 7, 8]

/-- calculate_overall_score from naaf_framework.py: iterate the items of
the layer_scores dict in insertion order, add the score when the layer
number is a key of NAAF_LAYERS, then clamp the total at 100.0. -/
def framework_overall_score (layer_scores : List (ℕ × ℚ)) : ℚ :=
  let total :=
    layer_scores.foldl
      (fun acc p => if p.1 ∈ naafLayerNumbers then acc + p.2 else acc) 0
  min total 100

/-! ### Research store (backend/framework/research_store.py) -/

/-- The fields of a StoredResearch record that the index and the claims
touch (research_store.py lines 22-38; the remaining fields are payload
carried through unchanged). -/
structure StoredResearch where
  id : String
  country : String
  year : ℤ
  overall_score : ℚ
  tier : String
  generated_at : String
deriving DecidableEq

/-- One entry of index["runs"] (research_store.py lines 131-138 and
226-233). -/
structure RunMeta where
  id : String
  country : String
  year : ℤ
  overall_score : ℚ
  tier : String
  generated_at : String
deriving DecidableEq

/-- The store's on-disk state: the set of ids with an id.json file, plus
the three parts of index.json. -/
structure StoreState where
  files : List String
  runs : List RunMeta
  by_country : List (String × List String)
  latest_by_country : List (String × String)
deriving DecidableEq

/-- The runs entry written for a record by save (lines 226-233). -/
def runMetaOf (r : StoredResearch) : RunMeta :=
  { id := r.id, country := r.country, year := r.year,
    overall_score := r.overall_score, tier := r.tier,
    generated_at := r.generated_at }

/-- Writing id.json: the file exists afterwards (json.dump overwrites). -/
def writeIdFile (files : List String) (id : String) : List String :=
  if id ∈ files then files else files ++ [id]

/-- ResearchStore.save (research_store.py lines 212-245): write id.json,
append a runs entry, append the id to by_country[country.lower()]
(creating the list if needed), and point latest_by_country at it. -/
def store_save (r : StoredResearch) (s : StoreState) : String × StoreState :=
  let files := writeIdFile s.files r.id
  let cl := pyToLower r.country
  let ids := (dlookup s.by_country cl).getD []
  ( r.id,
    { files := files
      runs := s.runs ++ [runMetaOf r]
      by_country := dset s.by_country cl (ids ++ [r.id])
      latest_by_country := dset s.latest_by_country cl r.id } )

/-- _generate_id (research_store.py lines 81-85):
country.lower().replace(" ", "_") + "_" + timestamp. -/
def generate_id (country ts : String) : String :=
  pyReplaceChar (pyToLower country) ' ' '_' ++ "_" ++ ts

/-- ResearchStore.save_research (research_store.py lines 87-151):
generate the id from the country and the current timestamp, write
id.json, and update runs / by_country / latest_by_country exactly as
save does. -/
def store_save_research (country : String) (year : ℤ) (overall_score : ℚ)
    (tier ts : String) (s : StoreState) : String × StoreState :=
  let rid := generate_id country ts
  let files := writeIdFile s.files rid
  let cl := pyToLower country
  let ids := (dlookup s.by_country cl).getD []
  ( rid,
    { files := files
      runs := s.runs ++ [{ id := rid, country := country, year := year,
                           overall_score := overall_score, tier := tier,
                           generated_at := ts }]
      by_country := dset s.by_country cl (ids ++ [rid])
      latest_by_country := dset s.latest_by_country cl rid } )

/-- The body of delete_research's per-country loop for one by_country
entry (research_store.py lines 291-299): if the id is in the list,
list.remove drops its first occurrence; when latest_by_country pointed
at the id, repoint it at the new last element, or delete the key when
the list became empty. -/
def deleteFromEntry (rid : String) (latest : List (String × String))
    (e : String × List String) : (String × List String) × List (String × String) :=
  if rid ∈ e.2 then
    let ids := e.2.erase rid
    let latest2 :=
      if dlookup latest e.1 = some rid then
        match ids.getLast? with
        | some lastId => dset latest e.1 lastId
        | none => ddel latest e.1
      else latest
    ((e.1, ids), latest2)
  else (e, latest)

/-- The for-loop over by_country.items() in delete_research, threading
the latest_by_country map through. -/
def deleteLoop (rid : String) :
    List (String × List String) → List (String × String) →
    List (String × List String) × List (String × String)
  | [], latest => ([], latest)
  | e :: rest, latest =>
      let step := deleteFromEntry rid latest e
      let restResult := deleteLoop rid rest step.2
      (step.1 :: restResult.1, restResult.2)

/-- ResearchStore.delete_research (research_store.py lines 280-306):
return False and change nothing when id.json does not exist; otherwise
drop the runs entry, fix up by_country / latest_by_country, and unlink
the file. -/
def delete_research (rid : String) (s : StoreState) : Bool × StoreState :=
  if rid ∈ s.files then
    let runs := s.runs.filter (fun m => m.id != rid)
    let loopResult := deleteLoop rid s.by_country s.latest_by_country
    ( true,
      { files := s.files.erase rid
        runs := runs
        by_country := loopResult.1
        latest_by_country := loopResult.2 } )
  else (false, s)

/-- Python list slicing l[i:] with a possibly negative start index, as
used by list's ids[-limit:]. -/
def pySliceFrom {α : Type} (l : List α) (i : ℤ) : List α :=
  if i < 0 then l.drop (Int.toNat (Int.ofNat l.length + i))
  else l.drop (Int.toNat i)

/-- The country-filtered branch of ResearchStore.list (research_store.py
lines 262-269): take ids[-limit:] of the country's id list and keep the
ids whose file exists (get_research returns the record loaded from the
file; we return the ids of the returned records). -/
def store_list_country (s : StoreState) (country : String) (limit : ℤ) : List String :=
  let ids := (dlookup s.by_country (pyToLower country)).getD []
  (pySliceFrom ids (-limit)).filter (fun i => i ∈ s.files)

/-! ### Reference definitions written from the spec text
(for refinement comparisons only; everything above is translated from
the source) -/

/-- Reference aggregate following the spec's words (section 4.2): for
each of the 8 layers clamp the raw score to [0,100], multiply by
weight/100, sum, and clamp the total at a maximum of 100.0. -/
def specAggregate (s : ℕ → ℚ) : ℚ :=
  min (max 0 (min 100 (s 1)) * (20 / 100) + max 0 (min 100 (s 2)) * (15 / 100)
    + max 0 (min 100 (s 3)) * (15 / 100) + max 0 (min 100 (s 4)) * (10 / 100)
    + max 0 (min 100 (s 5)) * (10 / 100) + max 0 (min 100 (s 6)) * (10 / 100)
    + max 0 (min 100 (s 7)) * (10 / 100) + max 0 (min 100 (s 8)) * (10 / 100)) 100

/-- Reference first-seen URL deduplication following the spec's words
(section 4.4): iterate in arrival order, keep the first occurrence per
URL. -/
def specDedupAux : List String → List String → List String
  | [], _ => []
  | u :: rest, seen =>
      if u ∈ seen then specDedupAux rest seen
      else u :: specDedupAux rest (u :: seen)

/-- Reference deduplication of a URL list, first-seen order. -/
def specDedup (l : List String) : List String := specDedupAux l []

/-! ### Store index invariant (spec section 3, StoredResearch) -/

/-- A Python dict has pairwise-distinct keys; this structural property
of the assoc-list encoding is used as a hypothesis where needed. -/
def keysNodup {κ α : Type} (m : List (κ × α)) : Prop :=
  (m.map Prod.fst).Nodup

/-- The index maps of a store state are well-formed dicts. -/
def storeWF (s : StoreState) : Prop :=
  keysNodup s.by_country ∧ keysNodup s.latest_by_country

/-- Every per-country id list is duplicate-free. -/
def idsNodup (s : StoreState) : Prop :=
  ∀ e ∈ s.by_country, e.2.Nodup

/-- The claimed store index invariant: every id in by_country has a
corresponding id.json file, every id in latest_by_country has one, and
latest_by_country agrees with the last element of by_country in both
directions (an entry of either map forces the matching entry of the
other). -/
def storeInv (s : StoreState) : Prop :=
  (∀ e ∈ s.by_country, ∀ i ∈ e.2, i ∈ s.files) ∧
  (∀ e ∈ s.latest_by_country, e.2 ∈ s.files) ∧
  (∀ e ∈ s.by_country, e.2 ≠ [] → dlookup s.latest_by_country e.1 = e.2.getLast?) ∧
  (∀ e ∈ s.latest_by_country,
      (dlookup s.by_country e.1).map (fun l => l.getLast?) = some (some e.2))

/-! ### Concrete states and inputs used by witnesses and
counterexamples -/

/-- A fresh ADK session state: nothing cached, nothing written. -/
def emptyToolState : ToolState :=
  { country := none, report_dir := none, layerJson := [], files := [],
    collected_sources := [] }

/-- The state after score_layer(3, 50, "j1", country="x") on a fresh
session. -/
def stateAfterFirstWrite : ToolState :=
  (score_layer 3 50 ("j1") ("x") ("t") emptyToolState).2

/-- The state after a second score_layer(3, 50, "j2", country="x") for
the same layer in the same run. -/
def stateAfterSecondWrite : ToolState :=
  (score_layer 3 50 ("j2") ("x") ("t") stateAfterFirstWrite).2

/-- The on-disk path of layer 3's JSON file in that run. -/
def layer3Path : String := layerFilePath ("x_t") 3 ("cloud")

/-- A sample stored layer result. -/
def sampleLayerResult : LayerResult :=
  { layer_number := 3, layer_name := "Cloud & Data Centers",
    short_name := "cloud", score := 50, max_score := 100, weight_pct := 15,
    weighted_contribution := 15/2, justification := "j", status := "complete" }

/-- A session state whose run directory already holds one layer file. -/
def stateWithLayerFile : ToolState :=
  { country := some ("x"), report_dir := some ("x_t"),
    layerJson := [(3, sampleLayerResult)],
    files := [(layer3Path, sampleLayerResult)], collected_sources := [] }

/-- A collected-source buffer containing an empty URL. -/
def emptyUrlState : ToolState :=
  { emptyToolState with collected_sources := [{ url := "", title := "t" }] }

/-- The spec's dedup example: sources a, b, a in arrival order. -/
def abaState : ToolState :=
  { emptyToolState with
    collected_sources :=
      [{ url := "a", title := "t1" }, { url := "b", title := "t2" },
       { url := "a", title := "t3" }] }

/-- The raw layer scores of the end-to-end scenario,
[90, 85, 80, 70, 60, 50, 40, 30] for layers 1-8. -/
def demoScores (i : ℕ) : ℚ :=
  if i = 1 then 90 else if i = 2 then 85 else if i = 3 then 80
  else if i = 4 then 70 else if i = 5 then 60 else if i = 6 then 50
  else if i = 7 then 40 else if i = 8 then 30 else 0

/-- All-50 raw scores. -/
def constScores (_ : ℕ) : ℚ := 50

/-- All-100 raw scores. -/
def hundredScores (_ : ℕ) : ℚ := 100

/-- Two-entry layer-score mapping, original insertion order. -/
def permListA : List (ℕ × ℚ) := [(1, 50), (2, 30)]

/-- The same mapping with the insertion order permuted. -/
def permListB : List (ℕ × ℚ) := [(2, 30), (1, 50)]

/-- An empty research store. -/
def emptyStore : StoreState :=
  { files := [], runs := [], by_country := [], latest_by_country := [] }

/-- A sample research record with id "a" for country "x". -/
def sampleResearch : StoredResearch :=
  { id := "a", country := "x", year := 2024, overall_score := 50,
    tier := "Tier 2: Strategic Specialist", generated_at := "t1" }

/-- The store after saving the same record twice (same id "a"):
by_country["x"] = ["a", "a"], one file on disk. -/
def dupStore : StoreState :=
  (store_save sampleResearch (store_save sampleResearch emptyStore).2).2

/-- A store with one run "a" for country "x". -/
def oneRunStore : StoreState :=
  { files := ["a"], runs := [], by_country := [("x", ["a"])],
    latest_by_country := [("x", "a")] }

/-! ## Theorems -/

/-- get_tier reduces to the chain of closed-interval tests of
POWER_TIERS, in dict order, with the Tier 4 fallback. -/
theorem get_tier_unfold (s : ℚ) : get_tier s =
    (if 80 ≤ s ∧ s ≤ 100 then "Tier 1: Hegemon"
     else if 50 ≤ s ∧ s ≤ 79 then "Tier 2: Strategic Specialist"
     else if 30 ≤ s ∧ s ≤ 49 then "Tier 3: Adopter"
     else if 0 ≤ s ∧ s ≤ 29 then "Tier 4: Consumer"
     else "Tier 4: Consumer") := rfl

/-- calculate_overall_score written out over the 8 layers. -/
theorem calc_unfold (s : ℕ → ℚ) : calculate_overall_score s =
    min (0 + max 0 (min 100 (s 1)) / 100 * 20 + max 0 (min 100 (s 2)) / 100 * 15
      + max 0 (min 100 (s 3)) / 100 * 15 + max 0 (min 100 (s 4)) / 100 * 10
      + max 0 (min 100 (s 5)) / 100 * 10 + max 0 (min 100 (s 6)) / 100 * 10
      + max 0 (min 100 (s 7)) / 100 * 10 + max 0 (min 100 (s 8)) / 100 * 10) 100 := rfl

/-- Claim C1 (amended): on [0,100] the tier branch of
calculate_overall_score (scoring.py) realizes exactly the claimed
partition — Tier 1 iff 80 ≤ s ≤ 100, Tier 2 iff 50 ≤ s < 80, Tier 3 iff
30 ≤ s < 50, Tier 4 iff 0 ≤ s < 30 — while the framework's get_tier
agrees with it everywhere except on the gaps (29,30), (49,50) and
(79,80) between its closed integer ranges, where get_tier falls back to
"Tier 4: Consumer" (so get_tier 79.999 is not "Tier 2: Strategic
Specialist" as the claim states). -/
theorem tier_partition_amended (s : ℚ) (h0 : 0 ≤ s) (h100 : s ≤ 100) :
    (overallTier s = "Tier 1: Hegemon" ↔ 80 ≤ s ∧ s ≤ 100) ∧
    (overallTier s = "Tier 2: Strategic Specialist" ↔ 50 ≤ s ∧ s < 80) ∧
    (overallTier s = "Tier 3: Adopter" ↔ 30 ≤ s ∧ s < 50) ∧
    (overallTier s = "Tier 4: Consumer" ↔ 0 ≤ s ∧ s < 30) ∧
    (¬ ((29 < s ∧ s < 30) ∨ (49 < s ∧ s < 50) ∨ (79 < s ∧ s < 80)) →
       get_tier s = overallTier s) ∧
    ((29 < s ∧ s < 30) ∨ (49 < s ∧ s < 50) ∨ (79 < s ∧ s < 80) →
       get_tier s = "Tier 4: Consumer") := by
  refine ⟨?_, ?_, ?_, ?_, ?_, ?_⟩
  · unfold overallTier; split_ifs <;> simp_all <;>
      first | (intros; linarith) | (constructor <;> intros <;> linarith)
  · unfold overallTier; split_ifs <;> simp_all <;>
      first | (intros; linarith) | (constructor <;> intros <;> linarith)
  · unfold overallTier; split_ifs <;> simp_all <;>
      first | (intros; linarith) | (constructor <;> intros <;> linarith)
  · unfold overallTier; split_ifs <;> simp_all <;>
      first | (intros; linarith) | (constructor <;> intros <;> linarith)
  · intro hng
    push_neg at hng
    rw [get_tier_unfold]; unfold overallTier
    split_ifs <;> simp_all <;>
      first | (intros; linarith) | (constructor <;> intros <;> linarith)
  · intro hgap
    rw [get_tier_unfold]
    rcases hgap with h | h | h <;> obtain ⟨ha, hb⟩ := h <;>
      split_ifs <;> simp_all <;>
      first | (intros; linarith) | (constructor <;> intros <;> linarith)

/-- Claim C1 counterexample: a score strictly between 79 and 80 is in
none of get_tier's closed ranges, so get_tier(79.999) resolves to the
"Tier 4: Consumer" fallback, not to "Tier 2: Strategic Specialist" as
the claim requires. -/
theorem get_tier_gap_counterexample :
    get_tier (79.999 : ℚ) = "Tier 4: Consumer" ∧
    ¬ get_tier (79.999 : ℚ) = "Tier 2: Strategic Specialist" := by
  have h : get_tier (79.999 : ℚ) = "Tier 4: Consumer" := by
    rw [get_tier_unfold]; norm_num
  exact ⟨h, by rw [h]; decide⟩

/-- Witness for tier_partition_amended at score 60. -/
theorem tier_partition_amended_witness :
    (0 ≤ (60 : ℚ)) ∧ ((60 : ℚ) ≤ 100) ∧
    ((overallTier 60 = "Tier 1: Hegemon" ↔ 80 ≤ (60 : ℚ) ∧ (60 : ℚ) ≤ 100) ∧
     (overallTier 60 = "Tier 2: Strategic Specialist" ↔ 50 ≤ (60 : ℚ) ∧ (60 : ℚ) < 80) ∧
     (overallTier 60 = "Tier 3: Adopter" ↔ 30 ≤ (60 : ℚ) ∧ (60 : ℚ) < 50) ∧
     (overallTier 60 = "Tier 4: Consumer" ↔ 0 ≤ (60 : ℚ) ∧ (60 : ℚ) < 30) ∧
     (¬ ((29 < (60 : ℚ) ∧ (60 : ℚ) < 30) ∨ (49 < (60 : ℚ) ∧ (60 : ℚ) < 50) ∨
          (79 < (60 : ℚ) ∧ (60 : ℚ) < 80)) →
        get_tier 60 = overallTier 60) ∧
     ((29 < (60 : ℚ) ∧ (60 : ℚ) < 30) ∨ (49 < (60 : ℚ) ∧ (60 : ℚ) < 50) ∨
        (79 < (60 : ℚ) ∧ (60 : ℚ) < 80) →
        get_tier 60 = "Tier 4: Consumer")) :=
  ⟨by norm_num, by norm_num, tier_partition_amended 60 (by norm_num) (by norm_num)⟩

/-- Claim C4: aggregating the raw layer scores [90,85,80,70,60,50,40,30]
under the weights [20,15,15,10,10,10,10,10] yields exactly 67.75, and
both classifiers put 67.75 in "Tier 2: Strategic Specialist". -/
theorem end_to_end_scenario :
    calculate_overall_score demoScores = 67.75 ∧
    calculate_overall_score_tier demoScores = "Tier 2: Strategic Specialist" ∧
    get_tier (67.75 : ℚ) = "Tier 2: Strategic Specialist" := by
  have hs : calculate_overall_score demoScores = 67.75 := by
    rw [calc_unfold]
    norm_num [demoScores, min_def, max_def]
  refine ⟨hs, ?_, ?_⟩
  · unfold calculate_overall_score_tier
    rw [hs]
    unfold overallTier
    norm_num
  · rw [get_tier_unfold]
    norm_num

/-- Claim C3: calculate_overall_score equals the spec's reference
aggregate (clamp each raw score to [0,100], weight, sum, clamp the total
at 100); for raw scores within [0,100] the output is within [0,100], and
all-100 scores give exactly 100. -/
theorem calculate_overall_score_matches_spec (s : ℕ → ℚ) :
    calculate_overall_score s = specAggregate s ∧
    ((∀ i, 1 ≤ i → i ≤ 8 → 0 ≤ s i ∧ s i ≤ 100) →
       0 ≤ calculate_overall_score s ∧ calculate_overall_score s ≤ 100) ∧
    ((∀ i, 1 ≤ i → i ≤ 8 → s i = 100) → calculate_overall_score s = 100) := by
  refine ⟨?_, ?_, ?_⟩
  · rw [calc_unfold]
    unfold specAggregate
    congr 1
    ring
  · intro _
    constructor
    · rw [calc_unfold]
      rw [le_min_iff]
      refine ⟨?_, by norm_num⟩
      positivity
    · exact min_le_right _ _
  · intro h
    rw [calc_unfold, h 1 (by norm_num) (by norm_num), h 2 (by norm_num) (by norm_num),
      h 3 (by norm_num) (by norm_num), h 4 (by norm_num) (by norm_num),
      h 5 (by norm_num) (by norm_num), h 6 (by norm_num) (by norm_num),
      h 7 (by norm_num) (by norm_num), h 8 (by norm_num) (by norm_num)]
    norm_num [min_def, max_def]

/-- Witness for calculate_overall_score_matches_spec: the equality at
the all-50 scores, the bounds there, and the all-100 case. -/
theorem calculate_overall_score_matches_spec_witness :
    (calculate_overall_score constScores = specAggregate constScores) ∧
    (0 ≤ calculate_overall_score constScores ∧
       calculate_overall_score constScores ≤ 100) ∧
    calculate_overall_score hundredScores = 100 :=
  ⟨(calculate_overall_score_matches_spec constScores).1,
   (calculate_overall_score_matches_spec constScores).2.1
     (fun _ _ _ => ⟨by norm_num [constScores], by norm_num [constScores]⟩),
   (calculate_overall_score_matches_spec hundredScores).2.2
     (fun _ _ _ => by norm_num [hundredScores])⟩

/-- The accumulating loop of the framework's calculate_overall_score,
expressed as the sum over the entries whose key is a NAAF layer. -/
theorem framework_foldl_eq (l : List (ℕ × ℚ)) (a : ℚ) :
    l.foldl (fun acc p => if p.1 ∈ naafLayerNumbers then acc + p.2 else acc) a
      = a + ((l.filter (fun p => p.1 ∈ naafLayerNumbers)).map Prod.snd).sum := by
  induction l generalizing a with
  | nil => simp
  | cons p t ih =>
      by_cases hp : p.1 ∈ naafLayerNumbers
      · simp [List.foldl_cons, hp, ih, List.filter_cons, add_assoc]
      · simp [List.foldl_cons, hp, ih, List.filter_cons]

/-- Claim C8: the framework's calculate_overall_score is independent of
the insertion order of the layer_scores mapping — permuting the entries
yields the same total. -/
theorem aggregate_order_independent (l1 l2 : List (ℕ × ℚ)) (h : l1.Perm l2) :
    framework_overall_score l1 = framework_overall_score l2 := by
  simp only [framework_overall_score]
  rw [framework_foldl_eq, framework_foldl_eq,
    ((h.filter (fun p => decide (p.1 ∈ naafLayerNumbers))).map Prod.snd).sum_eq]

/-- Witness for aggregate_order_independent on a concrete two-entry
mapping and its transposition. -/
theorem aggregate_order_independent_witness :
    permListA.Perm permListB ∧
    framework_overall_score permListA = framework_overall_score permListB :=
  ⟨List.Perm.swap (2, 30) (1, 50) [],
   aggregate_order_independent permListA permListB
     (List.Perm.swap (2, 30) (1, 50) [])⟩

/-- Claim C10: for in-range raw scores the tools scoring engine
(calculate_overall_score in scoring.py) and the framework aggregation
(calculate_overall_score in naaf_framework.py, applied to the mapping
layer number to weighted contribution) compute the same overall total. -/
theorem implementations_agree (s : ℕ → ℚ)
    (h : ∀ i, 1 ≤ i → i ≤ 8 → 0 ≤ s i ∧ s i ≤ 100) :
    calculate_overall_score s =
      framework_overall_score
        ((List.range' 1 8).map (fun i => (i, s i / 100 * LAYER_WEIGHTS i))) := by
  have h1 := h 1 (by norm_num) (by norm_num)
  have h2 := h 2 (by norm_num) (by norm_num)
  have h3 := h 3 (by norm_num) (by norm_num)
  have h4 := h 4 (by norm_num) (by norm_num)
  have h5 := h 5 (by norm_num) (by norm_num)
  have h6 := h 6 (by norm_num) (by norm_num)
  have h7 := h 7 (by norm_num) (by norm_num)
  have h8 := h 8 (by norm_num) (by norm_num)
  rw [calc_unfold]
  rw [min_eq_right h1.2, min_eq_right h2.2, min_eq_right h3.2, min_eq_right h4.2,
    min_eq_right h5.2, min_eq_right h6.2, min_eq_right h7.2, min_eq_right h8.2]
  rw [max_eq_right h1.1, max_eq_right h2.1, max_eq_right h3.1, max_eq_right h4.1,
    max_eq_right h5.1, max_eq_right h6.1, max_eq_right h7.1, max_eq_right h8.1]
  simp only [framework_overall_score, naafLayerNumbers, List.range', List.map,
    List.foldl, LAYER_WEIGHTS]
  norm_num

/-- Witness for implementations_agree at the all-50 scores. -/
theorem implementations_agree_witness :
    calculate_overall_score constScores =
      framework_overall_score
        ((List.range' 1 8).map (fun i => (i, constScores i / 100 * LAYER_WEIGHTS i))) :=
  implementations_agree constScores
    (fun _ _ _ => ⟨by norm_num [constScores], by norm_num [constScores]⟩)

/-- Claim C5: score_layer fails with an observable error exactly on
out-of-range inputs — layer_number outside [1,8] or score outside
[0,100] — and on failure leaves the session state and the disk
untouched; on in-range inputs it succeeds and the reported weighted
contribution is (score / 100) * weight. -/
theorem score_layer_validation (ln : ℤ) (sc : ℚ) (j c ts : String) (st : ToolState) :
    ((ln < 1 ∨ 8 < ln ∨ sc < 0 ∨ 100 < sc) →
       (∃ msg, (score_layer ln sc j c ts st).1 = Except.error msg) ∧
       (score_layer ln sc j c ts st).2 = st) ∧
    (1 ≤ ln → ln ≤ 8 → 0 ≤ sc → sc ≤ 100 →
       ∃ res, (score_layer ln sc j c ts st).1 = Except.ok res ∧
         res.1 = sc / 100 * LAYER_WEIGHTS ln.toNat) := by
  constructor
  · intro hbad
    unfold score_layer
    by_cases hA : ln < 1 ∨ 8 < ln
    · rw [if_pos hA]
      exact ⟨⟨_, rfl⟩, rfl⟩
    · have hB : sc < 0 ∨ 100 < sc := by
        rcases hbad with h | h | h | h
        · exact absurd (Or.inl h) hA
        · exact absurd (Or.inr h) hA
        · exact Or.inl h
        · exact Or.inr h
      rw [if_neg hA, if_pos hB]
      exact ⟨⟨_, rfl⟩, rfl⟩
  · intro hl1 hl8 hs0 hs100
    have hA : ¬ (ln < 1 ∨ 8 < ln) := by push_neg; exact ⟨hl1, hl8⟩
    have hB : ¬ (sc < 0 ∨ 100 < sc) := by push_neg; exact ⟨hs0, hs100⟩
    unfold score_layer
    rw [if_neg hA, if_neg hB]
    exact ⟨_, rfl, rfl⟩

/-- Witness for score_layer_validation: layer 9 is rejected with the
state unchanged; layer 3 with score 50 succeeds with contribution
50 / 100 * 15. -/
theorem score_layer_validation_witness :
    (((9 : ℤ) < 1 ∨ 8 < (9 : ℤ) ∨ (50 : ℚ) < 0 ∨ 100 < (50 : ℚ)) ∧
     (∃ msg, (score_layer 9 50 ("j") ("x") ("t") emptyToolState).1 = Except.error msg) ∧
     (score_layer 9 50 ("j") ("x") ("t") emptyToolState).2 = emptyToolState) ∧
    (∃ res, (score_layer 3 50 ("j") ("x") ("t") emptyToolState).1 = Except.ok res ∧
       res.1 = (50 : ℚ) / 100 * LAYER_WEIGHTS (3 : ℤ).toNat) :=
  ⟨⟨Or.inr (Or.inl (by norm_num)),
    (score_layer_validation 9 50 ("j") ("x") ("t") emptyToolState).1
      (Or.inr (Or.inl (by norm_num)))⟩,
   (score_layer_validation 3 50 ("j") ("x") ("t") emptyToolState).2
     (by norm_num) (by norm_num) (by norm_num) (by norm_num)⟩

/-! ### Association-list lemmas -/

/-- Looking up the key just set yields the new value. -/
theorem dlookup_dset_self {κ α : Type} [DecidableEq κ]
    (m : List (κ × α)) (k : κ) (v : α) : dlookup (dset m k v) k = some v := by
  induction m with
  | nil => simp [dset, dlookup]
  | cons e t ih =>
      by_cases he : e.1 = k
      · simp [dset, he, dlookup]
      · simp [dset, he, dlookup, ih]

/-- Setting one key leaves lookups of other keys unchanged. -/
theorem dlookup_dset_ne {κ α : Type} [DecidableEq κ]
    (m : List (κ × α)) (k k2 : κ) (v : α) (h : k2 ≠ k) :
    dlookup (dset m k v) k2 = dlookup m k2 := by
  induction m with
  | nil =>
      simp only [dset, dlookup]
      rw [if_neg (Ne.symm h)]
  | cons e t ih =>
      simp only [dset]
      by_cases he : e.1 = k
      · rw [if_pos he]
        have hek2 : ¬ e.1 = k2 := by rw [he]; exact Ne.symm h
        simp only [dlookup]
        rw [if_neg (Ne.symm h), if_neg hek2]
      · rw [if_neg he]
        simp only [dlookup]
        by_cases he2 : e.1 = k2
        · rw [if_pos he2, if_pos he2]
        · rw [if_neg he2, if_neg he2]
          exact ih

/-- The write-if-absent loop of save_final_report never changes a path
that already has a file. -/
theorem ensure_layer_files_preserve (dir : String) (pairs : List (ℕ × LayerResult)) :
    ∀ (fs : List (String × LayerResult)) (p : String), (dlookup fs p).isSome →
      dlookup (pairs.foldl (ensureLayerFile dir) fs) p = dlookup fs p := by
  induction pairs with
  | nil => intro fs p _; rfl
  | cons q t ih =>
      intro fs p hp
      rw [List.foldl_cons]
      by_cases hq : (dlookup fs (layerFilePath dir q.1 (LAYER_SHORT_NAMES q.1))).isSome
      · have hstep : ensureLayerFile dir fs q = fs := by
          simp only [ensureLayerFile]
          rw [if_pos hq]
        rw [hstep]
        exact ih fs p hp
      · have hne : p ≠ layerFilePath dir q.1 (LAYER_SHORT_NAMES q.1) := by
          intro hpe; rw [hpe] at hp; exact hq hp
        have hstep : ensureLayerFile dir fs q =
            dset fs (layerFilePath dir q.1 (LAYER_SHORT_NAMES q.1)) q.2 := by
          simp only [ensureLayerFile]
          rw [if_neg hq]
        rw [hstep]
        have hp2 : (dlookup (dset fs (layerFilePath dir q.1 (LAYER_SHORT_NAMES q.1)) q.2) p).isSome := by
          rw [dlookup_dset_ne _ _ _ _ hne]; exact hp
        rw [ih _ p hp2, dlookup_dset_ne _ _ _ _ hne]

/-- Claim C2 (amended): only the layer writes performed by
save_final_report are first-write-wins — an already-present
layers/layer_n_short.json is left untouched by save_final_report; the
write performed by score_layer via _write_layer_json is unconditional,
so a second score_layer call for the same layer with different
justification replaces the file (see the counterexample). -/
theorem save_final_report_first_write_wins (country : String) (ov : ℚ)
    (tier summ ts : String) (st : ToolState) (p : String)
    (h : (dlookup st.files p).isSome) :
    dlookup (save_final_report country ov tier summ ts st).2.files p
      = dlookup st.files p := by
  obtain ⟨c0, rd, lj, fs, cs⟩ := st
  cases rd with
  | none =>
      simp only [save_final_report, get_or_create_report_dir]
      exact ensure_layer_files_preserve _ _ _ _ h
  | some d =>
      simp only [save_final_report, get_or_create_report_dir]
      exact ensure_layer_files_preserve _ _ _ _ h

/-- Claim C2 counterexample: two successive score_layer calls for layer
3 in the same run, with justifications "j1" then "j2"; after the second
call the on-disk layer file holds "j2", not the first write's "j1" —
the second write did change the file. -/
theorem layer_file_overwrite_counterexample :
    (dlookup stateAfterFirstWrite.files layer3Path).map LayerResult.justification
      = some ("j1") ∧
    (dlookup stateAfterSecondWrite.files layer3Path).map LayerResult.justification
      = some ("j2") ∧
    (dlookup stateAfterSecondWrite.files layer3Path).map LayerResult.justification
      ≠ (dlookup stateAfterFirstWrite.files layer3Path).map LayerResult.justification := by
  refine ⟨?_, ?_, ?_⟩ <;> decide

/-- Witness for save_final_report_first_write_wins: a run directory that
already holds layer 3's file keeps it unchanged across
save_final_report. -/
theorem save_final_report_first_write_wins_witness :
    (dlookup stateWithLayerFile.files layer3Path).isSome ∧
    dlookup (save_final_report ("x") 50 ("t") ("s") ("ts") stateWithLayerFile).2.files layer3Path
      = dlookup stateWithLayerFile.files layer3Path :=
  ⟨by decide,
   save_final_report_first_write_wins ("x") 50 ("t") ("s") ("ts")
     stateWithLayerFile layer3Path (by decide)⟩

/-- The dedup loop of save_final_report agrees with the spec's
first-seen dedup whenever every collected URL is non-empty. -/
theorem dedupSources_spec (l : List SourceRec) :
    ∀ seen, (∀ s ∈ l, s.url ≠ "") →
      (dedupSources l seen).map SourceRec.url = specDedupAux (l.map SourceRec.url) seen := by
  induction l with
  | nil => intro seen _; rfl
  | cons s t ih =>
      intro seen h
      have hs : s.url ≠ "" := h s (List.mem_cons_self s t)
      have ht : ∀ x ∈ t, x.url ≠ "" := fun x hx => h x (List.mem_cons_of_mem s hx)
      by_cases hmem : s.url ∈ seen
      · simp [dedupSources, specDedupAux, hs, hmem, ih seen ht]
      · simp [dedupSources, specDedupAux, hs, hmem, ih (s.url :: seen) ht]

/-- Claim C6 (amended): for collected sources whose url fields are all
non-empty, the assembled sources list is exactly the input URLs with
later duplicates removed (exact string match), in first-seen order; a
record with an empty url field is dropped entirely (see the
counterexample). -/
theorem save_final_report_dedup (country : String) (ov : ℚ)
    (tier summ ts : String) (st : ToolState)
    (h : ∀ s ∈ st.collected_sources, s.url ≠ "") :
    (save_final_report country ov tier summ ts st).1.sources =
      specDedup (st.collected_sources.map SourceRec.url) := by
  obtain ⟨c0, rd, lj, fs, cs⟩ := st
  cases rd <;>
    simp only [save_final_report, get_or_create_report_dir, specDedup] <;>
    exact dedupSources_spec cs [] h

/-- Claim C6 counterexample: a collected source with an empty url is
dropped by save_final_report, so the assembled list is not the
dedup-only list the claim describes. -/
theorem dedup_empty_url_counterexample :
    (save_final_report ("x") 50 ("t") ("s") ("ts") emptyUrlState).1.sources = [] ∧
    specDedup (emptyUrlState.collected_sources.map SourceRec.url) = [""] ∧
    (save_final_report ("x") 50 ("t") ("s") ("ts") emptyUrlState).1.sources
      ≠ specDedup (emptyUrlState.collected_sources.map SourceRec.url) := by
  refine ⟨?_, ?_, ?_⟩ <;> decide

/-- Witness for save_final_report_dedup on the spec's a, b, a example:
the assembled sources list is [a, b]. -/
theorem save_final_report_dedup_witness :
    (∀ s ∈ abaState.collected_sources, s.url ≠ "") ∧
    (save_final_report ("x") 50 ("t") ("s") ("ts") abaState).1.sources =
      specDedup (abaState.collected_sources.map SourceRec.url) ∧
    specDedup (abaState.collected_sources.map SourceRec.url) = ["a", "b"] :=
  ⟨by decide,
   save_final_report_dedup ("x") 50 ("t") ("s") ("ts") abaState (by decide),
   by decide⟩

/-- Claim C9 (code-bug evaluation): with a single existing run for
country "x", list with country filter and limit = 0 returns that run —
Python's ids[-0:] is ids[0:], the whole list — so the result is not
bounded by limit, contradicting the documented "maximum number of
results". -/
theorem list_limit_zero_divergence :
    store_list_country oneRunStore ("x") 0 = ["a"] ∧
    ¬ (store_list_country oneRunStore ("x") 0).length ≤ 0 := by
  refine ⟨?_, ?_⟩ <;> decide

/-! ### Further association-list lemmas (for the store invariant) -/

/-- A successful lookup comes from an entry of the list. -/
theorem mem_of_dlookup {κ α : Type} [DecidableEq κ]
    (m : List (κ × α)) (k : κ) (v : α) (h : dlookup m k = some v) : (k, v) ∈ m := by
  induction m with
  | nil => cases h
  | cons e t ih =>
      rw [dlookup] at h
      by_cases he : e.1 = k
      · rw [if_pos he] at h
        have hv : v = e.2 := (Option.some.inj h).symm
        subst hv
        have hek : e = (k, e.2) := by rw [← he]
        exact List.mem_cons.2 (Or.inl hek.symm)
      · rw [if_neg he] at h
        exact List.mem_cons_of_mem e (ih h)

/-- With duplicate-free keys, lookup recovers every entry. -/
theorem dlookup_of_mem {κ α : Type} [DecidableEq κ]
    (m : List (κ × α)) (e : κ × α) (hnd : keysNodup m) (he : e ∈ m) :
    dlookup m e.1 = some e.2 := by
  induction m with
  | nil => cases he
  | cons f t ih =>
      rw [keysNodup, List.map_cons, List.nodup_cons] at hnd
      rcases List.mem_cons.1 he with h1 | h1
      · subst h1
        rw [dlookup, if_pos rfl]
      · rw [dlookup]
        have hne : ¬ f.1 = e.1 := by
          intro hh
          exact hnd.1 (hh.symm ▸ List.mem_map_of_mem Prod.fst h1)
        rw [if_neg hne]
        exact ih hnd.2 h1

/-- Lookup of a key that occurs nowhere. -/
theorem dlookup_eq_none {κ α : Type} [DecidableEq κ]
    (m : List (κ × α)) (k : κ) (h : k ∉ m.map Prod.fst) : dlookup m k = none := by
  induction m with
  | nil => rfl
  | cons e t ih =>
      rw [List.map_cons, List.mem_cons] at h
      push_neg at h
      rw [dlookup, if_neg (fun hh => h.1 hh.symm)]
      exact ih h.2

/-- A successful lookup means the key occurs. -/
theorem mem_keys_of_dlookup {κ α : Type} [DecidableEq κ]
    (m : List (κ × α)) (k : κ) (v : α) (h : dlookup m k = some v) :
    k ∈ m.map Prod.fst := by
  by_contra hk
  rw [dlookup_eq_none m k hk] at h
  cases h

/-- Entry analysis of dset under duplicate-free keys. -/
theorem mem_dset_nodup {κ α : Type} [DecidableEq κ]
    (m : List (κ × α)) (k : κ) (v : α) (e : κ × α)
    (hnd : keysNodup m) (he : e ∈ dset m k v) :
    e = (k, v) ∨ (e ∈ m ∧ e.1 ≠ k) := by
  induction m with
  | nil =>
      rw [dset] at he
      rcases List.mem_singleton.1 he with rfl
      exact Or.inl rfl
  | cons f t ih =>
      rw [keysNodup, List.map_cons, List.nodup_cons] at hnd
      rw [dset] at he
      by_cases hf : f.1 = k
      · rw [if_pos hf] at he
        rcases List.mem_cons.1 he with h1 | h1
        · exact Or.inl h1
        · refine Or.inr ⟨List.mem_cons_of_mem f h1, fun hek => ?_⟩
          exact hnd.1 (hf.symm ▸ (hek ▸ List.mem_map_of_mem Prod.fst h1))
      · rw [if_neg hf] at he
        rcases List.mem_cons.1 he with h1 | h1
        · rcases h1 with rfl
          exact Or.inr ⟨List.mem_cons_self e t, hf⟩
        · rcases ih hnd.2 h1 with h | h
          · exact Or.inl h
          · exact Or.inr ⟨List.mem_cons_of_mem f h.1, h.2⟩

/-- The key list after dset. -/
theorem keys_dset {κ α : Type} [DecidableEq κ] (m : List (κ × α)) (k : κ) (v : α) :
    (dset m k v).map Prod.fst =
      if k ∈ m.map Prod.fst then m.map Prod.fst else m.map Prod.fst ++ [k] := by
  induction m with
  | nil => simp [dset]
  | cons f t ih =>
      rw [dset]
      by_cases hf : f.1 = k
      · rw [if_pos hf]
        simp [hf]
      · rw [if_neg hf, List.map_cons, List.map_cons, ih]
        by_cases hk : k ∈ t.map Prod.fst
        · rw [if_pos hk, if_pos (List.mem_cons_of_mem f.1 hk)]
        · rw [if_neg hk, if_neg ?side, List.cons_append]
          case side =>
            intro hc
            rcases List.mem_cons.1 hc with h | h
            · exact hf h.symm
            · exact hk h

/-- dset keeps keys duplicate-free. -/
theorem keysNodup_dset {κ α : Type} [DecidableEq κ]
    (m : List (κ × α)) (k : κ) (v : α) (h : keysNodup m) :
    keysNodup (dset m k v) := by
  unfold keysNodup at h ⊢
  rw [keys_dset]
  by_cases hk : k ∈ m.map Prod.fst
  · rw [if_pos hk]; exact h
  · rw [if_neg hk, List.nodup_append]
    exact ⟨h, List.nodup_singleton k,
      fun a ha hb => hk ((List.mem_singleton.1 hb) ▸ ha)⟩

/-- ddel removes the deleted key (duplicate-free keys). -/
theorem dlookup_ddel_self {κ α : Type} [DecidableEq κ]
    (m : List (κ × α)) (k : κ) (hnd : keysNodup m) :
    dlookup (ddel m k) k = none := by
  induction m with
  | nil => rfl
  | cons e t ih =>
      rw [keysNodup, List.map_cons, List.nodup_cons] at hnd
      rw [ddel]
      by_cases he : e.1 = k
      · rw [if_pos he]
        exact dlookup_eq_none t k (he ▸ hnd.1)
      · rw [if_neg he, dlookup, if_neg he]
        exact ih hnd.2

/-- ddel leaves other keys alone. -/
theorem dlookup_ddel_ne {κ α : Type} [DecidableEq κ]
    (m : List (κ × α)) (k k2 : κ) (h : k2 ≠ k) :
    dlookup (ddel m k) k2 = dlookup m k2 := by
  induction m with
  | nil => rfl
  | cons e t ih =>
      rw [ddel]
      by_cases he : e.1 = k
      · rw [if_pos he, dlookup, if_neg (fun hh : e.1 = k2 => h (hh.symm.trans he))]
      · rw [if_neg he, dlookup, dlookup]
        by_cases he2 : e.1 = k2
        · rw [if_pos he2, if_pos he2]
        · rw [if_neg he2, if_neg he2]
          exact ih

/-- The key list after ddel. -/
theorem keys_ddel {κ α : Type} [DecidableEq κ] (m : List (κ × α)) (k : κ) :
    (ddel m k).map Prod.fst = (m.map Prod.fst).erase k := by
  induction m with
  | nil => rfl
  | cons e t ih =>
      rw [ddel]
      by_cases he : e.1 = k
      · rw [if_pos he, List.map_cons, he, List.erase_cons_head]
      · rw [if_neg he, List.map_cons, List.map_cons,
          List.erase_cons_tail (by simpa using he), ih]

/-- ddel keeps keys duplicate-free. -/
theorem keysNodup_ddel {κ α : Type} [DecidableEq κ]
    (m : List (κ × α)) (k : κ) (h : keysNodup m) : keysNodup (ddel m k) := by
  unfold keysNodup at h ⊢
  rw [keys_ddel]
  exact h.erase k

/-- Lookup through a value-mapping of an assoc list. -/
theorem dlookup_map_value {κ α β : Type} [DecidableEq κ]
    (m : List (κ × α)) (f : α → β) (k : κ) :
    dlookup (m.map (fun e => (e.1, f e.2))) k = (dlookup m k).map f := by
  induction m with
  | nil => rfl
  | cons e t ih =>
      rw [List.map_cons, dlookup, dlookup]
      by_cases he : e.1 = k
      · rw [if_pos he, if_pos he]
        rfl
      · rw [if_neg he, if_neg he]
        exact ih

/-- Erasing a non-last element preserves the last element. -/
theorem getLast?_erase_of_ne_last {α : Type} [DecidableEq α]
    (l : List α) (x : α) (hx : x ∈ l) (hne : l.getLast? ≠ some x) :
    (l.erase x).getLast? = l.getLast? := by
  induction l with
  | nil => cases hx
  | cons a t ih =>
      cases t with
      | nil =>
          rcases List.mem_singleton.1 hx with rfl
          simp at hne
      | cons b t2 =>
          rw [List.getLast?_cons_cons] at hne ⊢
          by_cases hax : a = x
          · subst hax
            rw [List.erase_cons_head]
          · rw [List.erase_cons_tail (by simpa using hax)]
            have hxt : x ∈ b :: t2 := by
              rcases List.mem_cons.1 hx with h1 | h1
              · exact absurd h1.symm hax
              · exact h1
            have hrec := ih hxt hne
            have hnn : (b :: t2).erase x ≠ [] := by
              intro h0
              rw [h0] at hrec
              exact List.cons_ne_nil b t2 (List.getLast?_eq_none_iff.1 hrec.symm)
            cases herase : (b :: t2).erase x with
            | nil => exact absurd herase hnn
            | cons c r =>
                rw [herase] at hrec
                rw [List.getLast?_cons_cons]
                exact hrec

/-- Writing an id file makes it exist. -/
theorem mem_writeIdFile_self (fs : List String) (id : String) :
    id ∈ writeIdFile fs id := by
  unfold writeIdFile
  by_cases h : id ∈ fs
  · rw [if_pos h]; exact h
  · rw [if_neg h]; exact List.mem_append_right fs (List.mem_singleton.2 rfl)

/-- Writing an id file keeps every existing file. -/
theorem subset_writeIdFile (fs : List String) (id x : String) (h : x ∈ fs) :
    x ∈ writeIdFile fs id := by
  unfold writeIdFile
  by_cases hm : id ∈ fs
  · rw [if_pos hm]; exact h
  · rw [if_neg hm]; exact List.mem_append_left _ h

/-- The per-country result of delete_research's loop: the id's first
occurrence is removed (a no-op when absent). -/
theorem deleteFromEntry_fst (rid : String) (latest : List (String × String))
    (e : String × List String) :
    (deleteFromEntry rid latest e).1 = (e.1, e.2.erase rid) := by
  unfold deleteFromEntry
  by_cases hm : rid ∈ e.2
  · rw [if_pos hm]
  · rw [if_neg hm, List.erase_of_not_mem hm]

/-- delete_research's loop touches only the processed entry's key in
latest_by_country. -/
theorem deleteFromEntry_snd_ne (rid : String) (latest : List (String × String))
    (e : String × List String) (k : String) (hk : k ≠ e.1) :
    dlookup (deleteFromEntry rid latest e).2 k = dlookup latest k := by
  unfold deleteFromEntry
  dsimp only
  by_cases hm : rid ∈ e.2
  · rw [if_pos hm]
    by_cases hl : dlookup latest e.1 = some rid
    · rw [if_pos hl]
      cases hlast : (e.2.erase rid).getLast? with
      | some lastId => exact dlookup_dset_ne latest e.1 k lastId hk
      | none => exact dlookup_ddel_ne latest e.1 k hk
    · rw [if_neg hl]
  · rw [if_neg hm]

/-- delete_research's loop keeps the latest_by_country keys
duplicate-free. -/
theorem deleteFromEntry_snd_keysNodup (rid : String)
    (latest : List (String × String)) (e : String × List String)
    (h : keysNodup latest) : keysNodup (deleteFromEntry rid latest e).2 := by
  unfold deleteFromEntry
  dsimp only
  by_cases hm : rid ∈ e.2
  · rw [if_pos hm]
    by_cases hl : dlookup latest e.1 = some rid
    · rw [if_pos hl]
      cases (e.2.erase rid).getLast? with
      | some lastId => exact keysNodup_dset latest e.1 lastId h
      | none => exact keysNodup_ddel latest e.1 h
    · rw [if_neg hl]; exact h
  · rw [if_neg hm]; exact h

/-- The processed entry's key in latest_by_country after
delete_research's loop body. -/
theorem deleteFromEntry_snd_self (rid : String) (latest : List (String × String))
    (e : String × List String) (hla : keysNodup latest) :
    dlookup (deleteFromEntry rid latest e).2 e.1 =
      if rid ∈ e.2 ∧ dlookup latest e.1 = some rid
      then (e.2.erase rid).getLast? else dlookup latest e.1 := by
  unfold deleteFromEntry
  dsimp only
  by_cases hm : rid ∈ e.2
  · rw [if_pos hm]
    by_cases hl : dlookup latest e.1 = some rid
    · rw [if_pos hl, if_pos ⟨hm, hl⟩]
      cases hlast : (e.2.erase rid).getLast? with
      | some lastId => exact dlookup_dset_self latest e.1 lastId
      | none => exact dlookup_ddel_self latest e.1 hla
    · rw [if_neg hl, if_neg (fun hc => hl hc.2)]
  · rw [if_neg hm, if_neg (fun hc => hm hc.1)]

/-- Proof-internal abbreviation: the value delete_research's loop leaves
in latest_by_country at key k, as a function of the two lookups. -/
def loopSpec (rid : String) (bcLookup : Option (List String))
    (latestLookup : Option String) : Option String :=
  match bcLookup with
  | some ids =>
      if rid ∈ ids ∧ latestLookup = some rid
      then (ids.erase rid).getLast? else latestLookup
  | none => latestLookup

/-- by_country after delete_research's loop: every list loses the id's
first occurrence. -/
theorem deleteLoop_fst (rid : String) (bc : List (String × List String)) :
    ∀ latest, (deleteLoop rid bc latest).1
      = bc.map (fun e => (e.1, e.2.erase rid)) := by
  induction bc with
  | nil => intro latest; rfl
  | cons e t ih =>
      intro latest
      show (deleteFromEntry rid latest e).1 ::
          (deleteLoop rid t (deleteFromEntry rid latest e).2).1 = _
      rw [List.map_cons, deleteFromEntry_fst, ih]

/-- latest_by_country keys stay duplicate-free through the loop. -/
theorem deleteLoop_snd_keysNodup (rid : String) (bc : List (String × List String)) :
    ∀ latest, keysNodup latest → keysNodup (deleteLoop rid bc latest).2 := by
  induction bc with
  | nil => intro latest h; exact h
  | cons e t ih =>
      intro latest h
      exact ih _ (deleteFromEntry_snd_keysNodup rid latest e h)

/-- Lookup in latest_by_country after delete_research's loop, as a
function of the pre-loop lookups (both index maps well-formed dicts). -/
theorem deleteLoop_snd_lookup (rid : String) (bc : List (String × List String)) :
    ∀ latest, keysNodup bc → keysNodup latest → ∀ k,
      dlookup (deleteLoop rid bc latest).2 k
        = loopSpec rid (dlookup bc k) (dlookup latest k) := by
  induction bc with
  | nil => intro latest _ _ k; rfl
  | cons e t ih =>
      intro latest hbc hla k
      rw [keysNodup, List.map_cons, List.nodup_cons] at hbc
      show dlookup (deleteLoop rid t (deleteFromEntry rid latest e).2).2 k = _
      rw [ih _ hbc.2 (deleteFromEntry_snd_keysNodup rid latest e hla) k]
      by_cases hk : k = e.1
      · subst hk
        rw [dlookup_eq_none t e.1 hbc.1]
        rw [deleteFromEntry_snd_self rid latest e hla]
        have hhead : dlookup (e :: t) e.1 = some e.2 := by
          rw [dlookup, if_pos rfl]
        rw [hhead]
        rfl
      · rw [deleteFromEntry_snd_ne rid latest e k hk]
        have hhead : dlookup (e :: t) k = dlookup t k := by
          rw [dlookup, if_neg (fun hh => hk hh.symm)]
        rw [hhead]

/-- The index update common to save and save_research — write the id
file, append a runs entry, append the id to by_country[cl], point
latest_by_country[cl] at it — preserves the invariant and dict
well-formedness. -/
theorem index_update_preserves (s : StoreState) (rid cl : String) (m : RunMeta)
    (hwf : storeWF s) (hinv : storeInv s) :
    storeInv { files := writeIdFile s.files rid, runs := s.runs ++ [m],
               by_country := dset s.by_country cl
                 (((dlookup s.by_country cl).getD []) ++ [rid]),
               latest_by_country := dset s.latest_by_country cl rid } ∧
    storeWF { files := writeIdFile s.files rid, runs := s.runs ++ [m],
              by_country := dset s.by_country cl
                (((dlookup s.by_country cl).getD []) ++ [rid]),
              latest_by_country := dset s.latest_by_country cl rid } := by
  obtain ⟨h1, h2, h3, h4⟩ := hinv
  obtain ⟨w1, w2⟩ := hwf
  constructor
  · refine ⟨?_, ?_, ?_, ?_⟩
    · intro e he i hi
      rcases mem_dset_nodup _ _ _ _ w1 he with rfl | ⟨hm, _⟩
      · dsimp only at hi
        rcases List.mem_append.1 hi with hin | hin
        · cases hbc : dlookup s.by_country cl with
          | none => rw [hbc] at hin; cases hin
          | some l0 =>
              rw [hbc] at hin
              exact subset_writeIdFile _ _ _
                (h1 (cl, l0) (mem_of_dlookup _ _ _ hbc) i hin)
        · rcases List.mem_singleton.1 hin with rfl
          exact mem_writeIdFile_self s.files i
      · exact subset_writeIdFile _ _ _ (h1 e hm i hi)
    · intro e he
      rcases mem_dset_nodup _ _ _ _ w2 he with rfl | ⟨hm, _⟩
      · exact mem_writeIdFile_self s.files rid
      · exact subset_writeIdFile _ _ _ (h2 e hm)
    · intro e he hne
      rcases mem_dset_nodup _ _ _ _ w1 he with rfl | ⟨hm, hkne⟩
      · dsimp only
        rw [dlookup_dset_self, List.getLast?_concat]
      · dsimp only
        rw [dlookup_dset_ne _ _ _ _ hkne]
        exact h3 e hm hne
    · intro e he
      rcases mem_dset_nodup _ _ _ _ w2 he with rfl | ⟨hm, hkne⟩
      · dsimp only
        rw [dlookup_dset_self]
        show some (((dlookup s.by_country cl).getD [] ++ [rid]).getLast?)
          = some (some rid)
        rw [List.getLast?_concat]
      · dsimp only
        rw [dlookup_dset_ne _ _ _ _ hkne]
        exact h4 e hm
  · exact ⟨keysNodup_dset _ _ _ w1, keysNodup_dset _ _ _ w2⟩

/-- delete_research preserves the invariant when the index maps are
well-formed dicts and the per-country id lists are duplicate-free. -/
theorem delete_preserves (rid : String) (s : StoreState)
    (hwf : storeWF s) (hinv : storeInv s) (hnd : idsNodup s) :
    storeInv (delete_research rid s).2 := by
  obtain ⟨h1, h2, h3, h4⟩ := hinv
  obtain ⟨w1, w2⟩ := hwf
  unfold delete_research
  by_cases hmem : rid ∈ s.files
  case neg =>
    rw [if_neg hmem]
    exact ⟨h1, h2, h3, h4⟩
  case pos =>
  rw [if_pos hmem]
  dsimp only
  have hfst := deleteLoop_fst rid s.by_country s.latest_by_country
  have hlookup := deleteLoop_snd_lookup rid s.by_country s.latest_by_country w1 w2
  have hlnd : keysNodup (deleteLoop rid s.by_country s.latest_by_country).2 :=
    deleteLoop_snd_keysNodup rid s.by_country s.latest_by_country w2
  have c1 : ∀ e ∈ (deleteLoop rid s.by_country s.latest_by_country).1,
      ∀ i ∈ e.2, i ∈ s.files.erase rid := by
    rw [hfst]
    intro e he i hi
    rcases List.mem_map.1 he with ⟨e0, he0, rfl⟩
    dsimp only at hi
    have hmem0 := (hnd e0 he0).mem_erase_iff.1 hi
    exact (List.mem_erase_of_ne hmem0.1).2 (h1 e0 he0 i hmem0.2)
  have c4 : ∀ e ∈ (deleteLoop rid s.by_country s.latest_by_country).2,
      (dlookup (deleteLoop rid s.by_country s.latest_by_country).1 e.1).map
          (fun l => l.getLast?)
        = some (some e.2) := by
    intro e he
    have hle : dlookup (deleteLoop rid s.by_country s.latest_by_country).2 e.1
        = some e.2 := dlookup_of_mem _ e hlnd he
    rw [hlookup e.1] at hle
    rw [hfst, dlookup_map_value s.by_country (fun l => l.erase rid) e.1]
    cases hbc : dlookup s.by_country e.1 with
    | none =>
        rw [hbc] at hle
        simp only [loopSpec] at hle
        have hmem2 : (e.1, e.2) ∈ s.latest_by_country :=
          mem_of_dlookup _ _ _ hle
        have h4e := h4 (e.1, e.2) hmem2
        rw [hbc] at h4e
        exact absurd h4e (by simp)
    | some ids =>
        rw [hbc] at hle
        simp only [loopSpec] at hle
        show some ((ids.erase rid).getLast?) = some (some e.2)
        by_cases hcond : rid ∈ ids ∧ dlookup s.latest_by_country e.1 = some rid
        · rw [if_pos hcond] at hle
          rw [hle]
        · rw [if_neg hcond] at hle
          have hmem2 : (e.1, e.2) ∈ s.latest_by_country :=
            mem_of_dlookup _ _ _ hle
          have h4e := h4 (e.1, e.2) hmem2
          rw [hbc] at h4e
          have hlast : ids.getLast? = some e.2 := by simpa using h4e
          by_cases hrin : rid ∈ ids
          · have hlr : dlookup s.latest_by_country e.1 ≠ some rid :=
              fun hc => hcond ⟨hrin, hc⟩
            have hne2 : ids.getLast? ≠ some rid := by
              intro hc
              apply hlr
              rw [hle]
              exact congrArg some (Option.some.inj (hlast.symm.trans hc))
            rw [getLast?_erase_of_ne_last ids rid hrin hne2, hlast]
          · rw [List.erase_of_not_mem hrin, hlast]
  have c2 : ∀ e ∈ (deleteLoop rid s.by_country s.latest_by_country).2,
      e.2 ∈ s.files.erase rid := by
    intro e he
    have h4n := c4 e he
    cases hbc2 : dlookup (deleteLoop rid s.by_country s.latest_by_country).1 e.1 with
    | none => rw [hbc2] at h4n; exact absurd h4n (by simp)
    | some ids2 =>
        rw [hbc2] at h4n
        have hlast2 : ids2.getLast? = some e.2 := by simpa using h4n
        exact c1 (e.1, ids2) (mem_of_dlookup _ _ _ hbc2) e.2
          (List.mem_of_getLast?_eq_some hlast2)
  have c3 : ∀ e ∈ (deleteLoop rid s.by_country s.latest_by_country).1,
      e.2 ≠ [] →
      dlookup (deleteLoop rid s.by_country s.latest_by_country).2 e.1
        = e.2.getLast? := by
    rw [hfst]
    intro e he hne
    rcases List.mem_map.1 he with ⟨e0, he0, rfl⟩
    dsimp only at hne ⊢
    rw [hlookup e0.1, dlookup_of_mem s.by_country e0 w1 he0]
    simp only [loopSpec]
    by_cases hrin : rid ∈ e0.2
    · by_cases hlr : dlookup s.latest_by_country e0.1 = some rid
      · rw [if_pos ⟨hrin, hlr⟩]
      · rw [if_neg (fun hc => hlr hc.2)]
        have hne0 : e0.2 ≠ [] := List.ne_nil_of_mem hrin
        have h3e := h3 e0 he0 hne0
        rw [h3e] at hlr ⊢
        exact (getLast?_erase_of_ne_last e0.2 rid hrin hlr).symm
    · rw [if_neg (fun hc => hrin hc.1), List.erase_of_not_mem hrin]
      rw [List.erase_of_not_mem hrin] at hne
      exact h3 e0 he0 hne
  exact ⟨c1, c2, c3, c4⟩

instance keysNodupDecidable {κ α : Type} [DecidableEq κ] (m : List (κ × α)) :
    Decidable (keysNodup m) := by
  unfold keysNodup
  infer_instance

instance storeWFDecidable (s : StoreState) : Decidable (storeWF s) := by
  unfold storeWF
  infer_instance

instance idsNodupDecidable (s : StoreState) : Decidable (idsNodup s) := by
  unfold idsNodup
  infer_instance

instance storeInvDecidable (s : StoreState) : Decidable (storeInv s) := by
  unfold storeInv
  infer_instance

/-- Claim C7 (amended): save and save_research preserve the index
invariant from any state whose index maps are well-formed dicts;
delete_research preserves it provided additionally that no per-country
id list contains a duplicate id.  The proviso is needed: saving the same
id twice keeps the invariant but makes the subsequent delete break it
(see the counterexample). -/
theorem store_operations_preserve_index_invariant
    (s : StoreState) (r : StoredResearch) (country : String) (year : ℤ)
    (ov : ℚ) (tier ts rid : String) :
    (storeWF s → storeInv s →
       storeInv (store_save r s).2 ∧ storeWF (store_save r s).2) ∧
    (storeWF s → storeInv s →
       storeInv (store_save_research country year ov tier ts s).2 ∧
       storeWF (store_save_research country year ov tier ts s).2) ∧
    (storeWF s → storeInv s → idsNodup s →
       storeInv (delete_research rid s).2) := by
  refine ⟨fun hwf hinv => ?_, fun hwf hinv => ?_, fun hwf hinv hnd => ?_⟩
  · exact index_update_preserves s r.id (pyToLower r.country) (runMetaOf r) hwf hinv
  · exact index_update_preserves s (generate_id country ts) (pyToLower country)
      { id := generate_id country ts, country := country, year := year,
        overall_score := ov, tier := tier, generated_at := ts } hwf hinv
  · exact delete_preserves rid s hwf hinv hnd

/-- Claim C7 counterexample: saving the same record (id "a") twice
leaves a state that satisfies the invariant, but delete_research("a")
then breaks it — list.remove drops only the first of the two "a"
entries in by_country["x"] while the id.json file is unlinked. -/
theorem delete_after_duplicate_save_counterexample :
    storeInv dupStore ∧ ¬ storeInv (delete_research ("a") dupStore).2 := by
  constructor <;> decide

/-- Witness for store_operations_preserve_index_invariant on the empty
store. -/
theorem store_operations_preserve_index_invariant_witness :
    (storeWF emptyStore ∧ storeInv emptyStore ∧ idsNodup emptyStore) ∧
    (storeInv (store_save sampleResearch emptyStore).2 ∧
       storeWF (store_save sampleResearch emptyStore).2) ∧
    (storeInv (store_save_research ("x") 2024 50 ("t2") ("ts") emptyStore).2 ∧
       storeWF (store_save_research ("x") 2024 50 ("t2") ("ts") emptyStore).2) ∧
    storeInv (delete_research ("a") emptyStore).2 :=
  ⟨⟨by decide, by decide, by decide⟩,
   (store_operations_preserve_index_invariant emptyStore sampleResearch
       ("x") 2024 50 ("t2") ("ts") ("a")).1 (by decide) (by decide),
   (store_operations_preserve_index_invariant emptyStore sampleResearch
       ("x") 2024 50 ("t2") ("ts") ("a")).2.1 (by decide) (by decide),
   (store_operations_preserve_index_invariant emptyStore sampleResearch
       ("x") 2024 50 ("t2") ("ts") ("a")).2.2 (by decide) (by decide) (by decide)⟩

end NAAF
